import Mathlib

/-!
Verification development for the image-enhancement data pipeline
(`src/data/Editor.py`).

Embedding conventions:
* pixel values are rationals; the floating-point NaN sentinel is `Option.none`,
  a finite sample is `Option.some q` (float rounding is abstracted away);
* numpy arrays are nested lists (`Img` for 2-D, `Stack` for 3-D), with the
  dynamic rank-2-or-3 union `NDArr`;
* the keyword-argument metadata dictionary threaded through `Editor.convert`
  is an association list with first-match lookup, and `dict.update` prepends
  the overriding entries;
* fallible Python code (exceptions) is embedded with `Except`.
-/

/-- A pixel value: `none` models the NaN no-data sentinel, `some q` a finite
numeric sample. -/
abbrev Val : Type := Option ℚ

/-- One row of a 2-D pixel array. -/
abbrev Row : Type := List Val

/-- A 2-D numpy array, as a list of rows. -/
abbrev Img : Type := List Row

/-- A 3-D numpy array: a stack of 2-D frames along the leading axis. -/
abbrev Stack : Type := List Img

/-- A numpy array of rank 2 or rank 3, the two ranks `PaddingEditor.call`
distinguishes via `len(data.shape)`. -/
inductive NDArr : Type
  | d2 (img : Img)
  | d3 (st : Stack)
deriving DecidableEq

/-- Trailing-axis size `shape[-2]` of a 2-D array: the number of rows. -/
def Img.hgt (img : Img) : Nat := img.length

/-- Trailing-axis size `shape[-1]` of a 2-D array: the length of the first
row (all rows agree on a rectangular array). -/
def Img.wid (img : Img) : Nat := (img.headD []).length

/-- Shape component `shape[-2]` of a 3-D array: the height of its frames. -/
def Stack.hgt (st : Stack) : Nat := (st.headD []).length

/-- Shape component `shape[-1]` of a 3-D array: the width of its frames. -/
def Stack.wid (st : Stack) : Nat := Img.wid (st.headD [])

/-- Rectangularity of a 2-D array: every row has the width reported by
`shape[-1]` (numpy arrays satisfy this by construction). -/
def Img.rect (img : Img) : Prop := ∀ r ∈ img, r.length = Img.wid img

/-- Rectangularity of a 3-D array: every frame has the frame height and
frame width reported by the shape. -/
def Stack.rect (st : Stack) : Prop :=
  ∀ im ∈ st, im.length = Stack.hgt st ∧ ∀ r ∈ im, r.length = Stack.wid st

/-- Cell access into a 2-D array; out-of-range reads give `none`. -/
def cell2 (img : Img) (i j : Nat) : Val := ((img.getD i []).getD j none)

/-- Cell access into a 3-D array; out-of-range reads give `none`. -/
def cell3 (st : Stack) (k i j : Nat) : Val := cell2 (st.getD k []) i j

/-! ### Metadata dictionaries (the `**kwargs` threaded through the pipeline) -/

/-- A metadata value stored in the keyword-argument dictionary. -/
inductive MVal : Type
  | mint (n : ℤ)
  | mstr (s : String)
deriving DecidableEq

/-- The metadata map: an association list standing for the Python `kwargs`
dictionary, with first-match lookup. -/
abbrev Metadata : Type := List (String × MVal)

/-- Dictionary lookup, first match wins. -/
def mlookup (kw : Metadata) (k : String) : Option MVal :=
  match kw with
  | [] => none
  | (k2, v) :: rest => if k2 = k then some v else mlookup rest k

/-- Python `kwargs.update(add_kwargs)`: the entries of `upd` override
same-named entries of `kw` (lookup-equivalent prepend). -/
def mupdate (kw upd : Metadata) : Metadata := upd ++ kw

/-! ### The `Editor` contract (`Editor.convert`, `src/data/Editor.py` lines 30-41) -/

/-- Result of an editor's `call`: either a plain value, or a
`(value, add_kwargs)` tuple carrying metadata updates. -/
inductive CallResult (δ : Type) : Type
  | plain (d : δ)
  | withMeta (d : δ) (upd : Metadata)

/-- An editor: the single-method transform unit. `call` consumes the current
data and the current metadata map. -/
structure Editor (δ : Type) : Type where
  call : δ → Metadata → CallResult δ

/-- The shared wrapper `Editor.convert`: replaces the data and, when `call`
returned a tuple, applies `kwargs.update(add_kwargs)`. -/
def Editor.convert {δ : Type} (e : Editor δ) (d : δ) (kw : Metadata) : δ × Metadata :=
  match e.call d kw with
  | .plain d2 => (d2, kw)
  | .withMeta d2 upd => (d2, mupdate kw upd)

/-- State after running a prefix of a pipeline: the fold of `Editor.convert`
that constitutes the loop body of `DistributeEditor.convertData`. -/
def runSteps {δ : Type} : List (Editor δ) → δ → Metadata → δ × Metadata
  | [], d, kw => (d, kw)
  | e :: es, d, kw =>
    let step := e.convert d kw
    runSteps es step.1 step.2

/-- `DistributeEditor.convertData` (lines 90-93): run the sub-pipeline,
returning only the final data. -/
def convertData {δ : Type} (eds : List (Editor δ)) (d : δ) (kw : Metadata) : δ :=
  (runSteps eds d kw).1

/-- The metadata map observed by the unit at position `i` of a pipeline:
the map after the units at positions below `i` have run. -/
def metaAt {δ : Type} (eds : List (Editor δ)) (d : δ) (kw : Metadata) (i : Nat) : Metadata :=
  (runSteps (eds.take i) d kw).2

/-- `DistributeEditor.call` (lines 87-88): run the sub-pipeline on each
element with the caller's current metadata map, and concatenate the results
along the leading axis (`np.concatenate(..., 0)` is `List.join`). -/
def distCall {α : Type} (eds : List (Editor (List α))) (ds : List (List α))
    (kw : Metadata) : List α :=
  (ds.map (fun d => convertData eds d kw)).flatten

/-! ### `NanEditor` (lines 54-60) -/

/-- Default of the `nan=0` constructor argument of `NanEditor`. -/
def NanEditor.nanDefault : ℚ := 0

/-- Elementwise behaviour of `np.nan_to_num(·, nan=r)` on finite-or-NaN
values: the sentinel becomes `r`, finite samples are unchanged. -/
def nanToNum (r : ℚ) (v : Val) : Val := some (v.getD r)

/-- `NanEditor.call`: `np.nan_to_num(data, nan=self.nan)` over a 2-D or 3-D
array. Total: it never raises. -/
def NanEditor.call (r : ℚ) : NDArr → NDArr
  | .d2 img => .d2 (img.map (fun row => row.map (nanToNum r)))
  | .d3 st => .d3 (st.map (fun img => img.map (fun row => row.map (nanToNum r))))

/-- `NanEditor` as a pipeline unit: its `call` returns a plain value (no
metadata tuple). -/
def NanEditor.editor (r : ℚ) : Editor NDArr :=
  ⟨fun d _ => .plain (NanEditor.call r d)⟩

/-! ### `NormalizeEditor` (lines 64-70) -/

/-- `NormalizeEditor.call`: `self.norm(data).data * 2 - 1`, with the
pluggable stretch `norm` an abstract array-to-array function (the `.data`
projection of the masked array is implicit in the embedding). Arithmetic on
the NaN sentinel yields NaN, hence `Option.map`. -/
def NormalizeEditor.call (norm : Img → Img) (data : Img) : Img :=
  (norm data).map (fun row => row.map (Option.map (fun q => q * 2 - 1)))

/-! ### Helper lemmas about cells of mapped arrays -/

lemma getD_map_of_lt {α β : Type} (f : α → β) (l : List α) (i : Nat)
    (d : α) (d2 : β) (hi : i < l.length) :
    (l.map f).getD i d2 = f (l.getD i d) := by
  rw [List.getD_eq_getElem?_getD, List.getD_eq_getElem?_getD,
    List.getElem?_map, List.getElem?_eq_getElem hi]
  rfl

lemma getD_of_not_lt {α : Type} (l : List α) (i : Nat) (d : α)
    (hi : ¬ i < l.length) :
    l.getD i d = d := by
  rw [List.getD_eq_getElem?_getD, List.getElem?_eq_none (by omega)]
  rfl

lemma cell2_map_total (f : Val → Val) (img : Img) (i j : Nat)
    (hi : i < img.length) (hj : j < (img.getD i []).length) :
    cell2 (img.map (fun row => row.map f)) i j = f ((img.getD i []).getD j none) := by
  unfold cell2
  rw [getD_map_of_lt _ _ _ [] _ hi, getD_map_of_lt _ _ _ none _ hj]

lemma cell2_map_opt (g : ℚ → ℚ) (img : Img) (i j : Nat) :
    cell2 (img.map (fun row => row.map (Option.map g))) i j = (cell2 img i j).map g := by
  by_cases hi : i < img.length
  · by_cases hj : j < (img.getD i []).length
    · rw [cell2_map_total _ _ _ _ hi hj]
      rfl
    · unfold cell2
      rw [getD_map_of_lt _ _ _ [] _ hi,
        getD_of_not_lt _ _ _ (by simpa using hj), getD_of_not_lt _ _ _ hj]
      rfl
  · unfold cell2
    rw [getD_of_not_lt (img.map (fun row => row.map (Option.map g))) _ _
      (by simpa using hi), getD_of_not_lt _ _ _ hi]
    rfl

lemma length_getD_map_row (f : Row → Row) (hf : ∀ r, (f r).length = r.length)
    (img : Img) (i : Nat) :
    ((img.map f).getD i []).length = (img.getD i []).length := by
  by_cases hi : i < img.length
  · rw [getD_map_of_lt _ _ _ [] _ hi, hf]
  · rw [getD_of_not_lt _ _ _ hi, getD_of_not_lt _ _ _ (by simpa using hi)]

/-! ### Claim C9: NormalizeEditor range -/

/-- C9: for every input on which the pluggable stretch yields values in
`[0,1]`, `NormalizeEditor.call` (which computes `stretch(input) * 2 - 1`)
produces values in `[-1,1]`, exactly `-1` where the stretch output is `0`
and exactly `1` where it is `1`. Stated cellwise: any stretch-output cell
holding `q ∈ [0,1]` becomes `q * 2 - 1`. -/
theorem normalizeEditor_range (norm : Img → Img) (data : Img) (i j : Nat) (q : ℚ)
    (hcell : cell2 (norm data) i j = some q) (h0 : 0 ≤ q) (h1 : q ≤ 1) :
    cell2 (NormalizeEditor.call norm data) i j = some (q * 2 - 1) ∧
    -1 ≤ q * 2 - 1 ∧ q * 2 - 1 ≤ 1 ∧
    (q = 0 → cell2 (NormalizeEditor.call norm data) i j = some (-1)) ∧
    (q = 1 → cell2 (NormalizeEditor.call norm data) i j = some 1) := by
  have hmain : cell2 (NormalizeEditor.call norm data) i j = some (q * 2 - 1) := by
    unfold NormalizeEditor.call
    rw [cell2_map_opt, hcell]
    rfl
  refine ⟨hmain, by linarith, by linarith, ?_, ?_⟩
  · intro h
    subst h
    rw [hmain]
    norm_num
  · intro h
    subst h
    rw [hmain]
    norm_num

/-- Witness for C9 at a concrete stretch function and input: the constant
stretch emitting a single cell `0`, which the normalizer maps to `-1`. -/
theorem normalizeEditor_range_witness :
    cell2 (NormalizeEditor.call (fun _ => [[some 0]]) []) 0 0 = some ((0 : ℚ) * 2 - 1) ∧
    -1 ≤ (0 : ℚ) * 2 - 1 ∧ (0 : ℚ) * 2 - 1 ≤ 1 ∧
    ((0 : ℚ) = 0 → cell2 (NormalizeEditor.call (fun _ => [[some 0]]) []) 0 0 = some (-1)) ∧
    ((0 : ℚ) = 1 → cell2 (NormalizeEditor.call (fun _ => [[some 0]]) []) 0 0 = some 1) :=
  normalizeEditor_range (fun _ => [[some 0]]) [] 0 0 0 (by decide) (by norm_num) (by norm_num)

/-! ### Claim C10: NanEditor -/

/-- C10: `NanEditor.call` returns an array of the same shape in which every
NaN sentinel is replaced by the configured value (default `0`) and every
finite entry is unchanged; it is a total function (never raises) and its
`call` returns a plain value, so `Editor.convert` writes no metadata. Both
the 2-D and the 3-D case are covered. -/
theorem nanEditor_spec (r : ℚ) (kw : Metadata) (img : Img) (st : Stack)
    (i j : Nat) (hi : i < img.length) (hj : j < (img.getD i []).length) :
    NanEditor.nanDefault = 0 ∧
    (NanEditor.editor r).convert (.d2 img) kw = (NanEditor.call r (.d2 img), kw) ∧
    (∃ out, NanEditor.call r (.d2 img) = .d2 out ∧
      out.length = img.length ∧
      (∀ i2, (out.getD i2 []).length = (img.getD i2 []).length) ∧
      cell2 out i j = some ((cell2 img i j).getD r) ∧
      (cell2 img i j = none → cell2 out i j = some r) ∧
      (∀ q, cell2 img i j = some q → cell2 out i j = some q)) ∧
    (∃ out3, NanEditor.call r (.d3 st) = .d3 out3 ∧
      out3.length = st.length ∧
      (∀ k2 i2 j2, k2 < st.length → i2 < (st.getD k2 []).length →
        j2 < ((st.getD k2 []).getD i2 []).length →
        cell3 out3 k2 i2 j2 = some ((cell3 st k2 i2 j2).getD r))) := by
  refine ⟨rfl, rfl, ?_, ?_⟩
  · refine ⟨_, rfl, by simp, ?_, ?_, ?_, ?_⟩
    · intro i2
      exact length_getD_map_row _ (by simp) img i2
    · exact cell2_map_total (nanToNum r) img i j hi hj
    · intro hnone
      rw [cell2_map_total (nanToNum r) img i j hi hj]
      unfold cell2 at hnone
      rw [hnone]
      rfl
    · intro q hq
      rw [cell2_map_total (nanToNum r) img i j hi hj]
      unfold cell2 at hq
      rw [hq]
      rfl
  · refine ⟨_, rfl, by simp, ?_⟩
    intro k2 i2 j2 hk2 hi2 hj2
    unfold cell3
    rw [getD_map_of_lt _ _ _ [] _ hk2]
    exact cell2_map_total (nanToNum r) (st.getD k2 []) i2 j2 hi2 hj2

/-- Witness for C10 at a concrete input: a 2-D array with one NaN and one
finite cell, and a one-frame 3-D array. -/
theorem nanEditor_spec_witness :
    NanEditor.nanDefault = 0 ∧
    (NanEditor.editor 5).convert (.d2 [[none, some 7]]) [] =
      (NanEditor.call 5 (.d2 [[none, some 7]]), []) ∧
    (∃ out, NanEditor.call 5 (.d2 [[none, some 7]]) = .d2 out ∧
      out.length = ([[none, some 7]] : Img).length ∧
      (∀ i2, (out.getD i2 []).length = (([[none, some 7]] : Img).getD i2 []).length) ∧
      cell2 out 0 0 = some ((cell2 [[none, some 7]] 0 0).getD 5) ∧
      (cell2 [[none, some 7]] 0 0 = none → cell2 out 0 0 = some 5) ∧
      (∀ q, cell2 [[none, some 7]] 0 0 = some q → cell2 out 0 0 = some q)) ∧
    (∃ out3, NanEditor.call 5 (.d3 [[[none]]]) = .d3 out3 ∧
      out3.length = ([[[none]]] : Stack).length ∧
      (∀ k2 i2 j2, k2 < ([[[none]]] : Stack).length →
        i2 < (([[[none]]] : Stack).getD k2 []).length →
        j2 < ((([[[none]]] : Stack).getD k2 []).getD i2 []).length →
        cell3 out3 k2 i2 j2 = some ((cell3 [[[none]]] k2 i2 j2).getD 5))) :=
  nanEditor_spec 5 [] [[none, some 7]] [[[none]]] 0 0 (by decide) (by decide)

/-! ### Claim C6: metadata ordering along a pipeline -/

/-- Pipeline unit for the ordering example: writes metadata key `"k" = 1`
(returns a `(data, add_kwargs)` tuple), leaving the data unchanged. -/
def wrA : Editor (Option MVal) := ⟨fun d _ => .withMeta d [("k", .mint 1)]⟩

/-- Pipeline unit for the ordering example: its output data is its
observation of metadata key `"k"`. -/
def rdB : Editor (Option MVal) := ⟨fun _ kw => .plain (mlookup kw "k")⟩

/-- C6: the metadata observed by the unit at position `i` is the fold of
the updates of units at positions below `i` only — replacing the units from
position `i` onwards cannot change it. In particular, in `[wrA, rdB]` the
reader observes `"k" = 1`, while in `[rdB, wrA]` it observes the absence of
`"k"`. -/
theorem editor_metadata_ordering {δ : Type} (eds eds2 : List (Editor δ)) (d : δ)
    (kw : Metadata) (i : Nat) (h : eds.take i = eds2.take i) :
    metaAt eds d kw i = metaAt eds2 d kw i ∧
    convertData [wrA, rdB] (some (.mstr "init")) [] = some (.mint 1) ∧
    convertData [rdB, wrA] (some (.mstr "init")) [] = none := by
  refine ⟨?_, by decide, by decide⟩
  unfold metaAt
  rw [h]

/-- Witness for C6: replacing the pipeline tail after position 1 leaves the
observed metadata unchanged, and the two concrete two-unit pipelines behave
as claimed. -/
theorem editor_metadata_ordering_witness :
    metaAt [wrA] (some (.mstr "init")) [] 1 = metaAt [wrA, rdB] (some (.mstr "init")) [] 1 ∧
    convertData [wrA, rdB] (some (.mstr "init")) [] = some (.mint 1) ∧
    convertData [rdB, wrA] (some (.mstr "init")) [] = none :=
  editor_metadata_ordering [wrA] [wrA, rdB] (some (.mstr "init")) [] 1 rfl

/-! ### Claim C7: DistributeEditor concatenates in input order -/

lemma flatten_block {α : Type} :
    ∀ (rs : List (List α)) (i : Nat), i < rs.length →
      (rs.flatten.drop (((rs.take i).map List.length).sum)).take (rs.getD i []).length
        = rs.getD i []
  | [], i, h => by simp at h
  | r :: rs, 0, _ => by
    show ((r ++ rs.flatten).drop 0).take r.length = r
    rw [List.drop_zero]
    exact List.take_left r rs.flatten
  | r :: rs, i + 1, h => by
    have ih := flatten_block rs i (by simpa using h)
    show ((r ++ rs.flatten).drop ((r :: (rs.take i)).map List.length).sum).take
        (rs.getD i []).length = rs.getD i []
    rw [List.map_cons, List.sum_cons, ← List.drop_drop, List.drop_left]
    exact ih

/-- Per-element output stack of leading-dimension size 1 for the C7 example. -/
def stA : Stack := [[[some 1]]]

/-- Per-element output stack of leading-dimension size 2 for the C7 example. -/
def stB : Stack := [[[some 2]], [[some 3]]]

/-- Per-element output stack of leading-dimension size 1 for the C7 example. -/
def stC : Stack := [[[some 4]]]

/-- C7: `DistributeEditor.call` concatenates the per-element sub-pipeline
results along the leading axis in input order: the output's leading
dimension is the sum of the per-element leading dimensions, and the `i`-th
block of the output (at the offset given by the sizes of the earlier
blocks) is exactly the `i`-th element's result. In particular, for three
inputs with per-element leading sizes 1, 2, 1 the output has leading
dimension 4 with the blocks in input order. -/
theorem distributeEditor_concat_order (eds : List (Editor Stack)) (ds : List Stack)
    (kw : Metadata) (i : Nat) (h : i < ds.length) :
    (distCall eds ds kw).length
      = ((ds.map (fun d => convertData eds d kw)).map List.length).sum ∧
    ((distCall eds ds kw).drop
        ((((ds.map (fun d => convertData eds d kw)).take i).map List.length).sum)).take
        ((ds.map (fun d => convertData eds d kw)).getD i []).length
      = (ds.map (fun d => convertData eds d kw)).getD i [] ∧
    distCall [] [stA, stB, stC] [] = stA ++ stB ++ stC ∧
    (distCall [] [stA, stB, stC] []).length = 4 := by
  refine ⟨List.length_flatten _, ?_, by decide, by decide⟩
  exact flatten_block (ds.map (fun d => convertData eds d kw)) i (by simpa using h)

/-- Witness for C7 on the three concrete inputs of leading sizes 1, 2, 1
with the empty sub-pipeline. -/
theorem distributeEditor_concat_order_witness :
    (distCall [] [stA, stB, stC] []).length
      = ((([stA, stB, stC] : List Stack).map
          (fun d => convertData [] d [])).map List.length).sum ∧
    ((distCall [] [stA, stB, stC] []).drop
        ((((([stA, stB, stC] : List Stack).map
          (fun d => convertData [] d [])).take 1).map List.length).sum)).take
        ((([stA, stB, stC] : List Stack).map (fun d => convertData [] d [])).getD 1 []).length
      = (([stA, stB, stC] : List Stack).map (fun d => convertData [] d [])).getD 1 [] ∧
    distCall [] [stA, stB, stC] [] = stA ++ stB ++ stC ∧
    (distCall [] [stA, stB, stC] []).length = 4 :=
  distributeEditor_concat_order [] [stA, stB, stC] [] 1 (by decide)

/-! ### Claim C8: DistributeEditor runs are isolated -/

/-- Dynamic value type for a pipeline stage containing a DistributeEditor:
either a single concatenated array or the list of per-element inputs. -/
inductive PVal : Type
  | stk (s : Stack)
  | lst (ls : List Stack)

/-- `DistributeEditor` as a pipeline unit over `PVal` (lines 83-93): on a
sequence input it returns the concatenation of the per-element sub-pipeline
results as a plain value (no metadata tuple), each per-element run being
`convertData` seeded with the caller's current map. The Python `**kwargs`
unpacking gives every `convertData` call its own dictionary copy, which the
value-passing embedding reflects. A non-sequence input is outside the
modelled behaviour and is returned unchanged. -/
def DistributeEditorE (eds : List (Editor Stack)) : Editor PVal :=
  ⟨fun d kw =>
    match d with
    | .lst ds => .plain (.stk (distCall eds ds kw))
    | .stk s => .plain (.stk s)⟩

/-- C8: each element's sub-pipeline run is seeded with exactly the caller's
current metadata map (`metaAt ... 0 = kw`), the run on element `j` depends
only on element `j` and that seed — two input lists agreeing at position
`j` produce the same block `j`, whatever was written during sibling runs —
and the caller's map is unchanged after the distribute step. -/
theorem distributeEditor_isolated (eds : List (Editor Stack)) (ds ds2 : List Stack)
    (kw : Metadata) (j : Nat) (hj : ds[j]? = ds2[j]?) :
    (DistributeEditorE eds).convert (.lst ds) kw = (.stk (distCall eds ds kw), kw) ∧
    convertData eds (ds.getD j []) kw = convertData eds (ds2.getD j []) kw ∧
    metaAt eds (ds.getD j []) kw 0 = kw := by
  refine ⟨rfl, ?_, rfl⟩
  rw [List.getD_eq_getElem?_getD, hj, ← List.getD_eq_getElem?_getD]

/-- Witness for C8: two concrete input lists agreeing at position 0. -/
theorem distributeEditor_isolated_witness :
    (DistributeEditorE []).convert (.lst [stA]) [] = (.stk (distCall [] [stA] []), []) ∧
    convertData [] (([stA] : List Stack).getD 0 []) []
      = convertData [] (([stA, stB] : List Stack).getD 0 []) [] ∧
    metaAt [] (([stA] : List Stack).getD 0 []) [] 0 = [] :=
  distributeEditor_isolated [] [stA] [stA, stB] [] 0 rfl

/-! ### The GREGOR instrument-file loaders (lines 96-146)

FITS headers are modelled as association lists with first-match lookup;
setting a key prepends (lookup-equivalent to in-place mutation). Header
values carry either a string or a number; Python compares a string tag and
a float target as unequal, which `HVal` equality reflects. The loaders'
failures are embedded with `Except`: the failed `assert` on a missing
wavelength tag is `missingMetadataError` (the spec's taxonomy name for the
AssertionError) and the explicit `raise Exception` when neither of the
first two records matches is `unsupportedInstrumentFile`. Out-of-range
record access and a missing or non-numeric `TIMEOFFS` key during the sort
are `indexError` and `keyError`. -/

/-- A FITS header value: a string or a (rational-abstracted float) number. -/
inductive HVal : Type
  | hstr (s : String)
  | hnum (q : ℚ)
deriving DecidableEq

/-- A FITS header: ordered key/value mapping. -/
abbrev Header : Type := List (String × HVal)

/-- Header lookup, first match wins. -/
def hget (h : Header) (k : String) : Option HVal :=
  match h with
  | [] => none
  | (k2, v) :: rest => if k2 = k then some v else hget rest k

/-- Header assignment `header[k] = v`, lookup-equivalent prepend. -/
def hset (h : Header) (k : String) (v : HVal) : Header := (k, v) :: h

/-- One record of the FITS container: a header and a pixel array. -/
structure HDU : Type where
  header : Header
  data : Img
deriving DecidableEq

/-- The ordered record list returned by `fits.open`. -/
abbrev HDUL : Type := List HDU

/-- A `sunpy` `Map(data, header)`: a frame pairing one record's pixel array
with the shared corrected header. -/
structure GMap : Type where
  data : Img
  meta : Header
deriving DecidableEq

/-- Failure modes of the loaders (spec taxonomy names where they exist). -/
inductive LoadError : Type
  | missingMetadataError
  | unsupportedInstrumentFile
  | indexError
  | keyError
deriving DecidableEq

/-- The G-band target wavelength `430.7`, as the exact fraction `4307/10`
(written as an explicit reduced fraction so that equality tests compute). -/
def gbandWL : ℚ := ⟨4307, 10, by norm_num, by norm_num⟩

/-- The G-band target wavelength constant `430.7`. -/
def gbandTarget : HVal := .hnum gbandWL

/-- The continuum target wavelength `450.55`, as `9011/20`. -/
def continuumWL : ℚ := ⟨9011, 20, by norm_num, by norm_num⟩

/-- The continuum target wavelength constant `450.55`. -/
def continuumTarget : HVal := .hnum continuumWL

/-- The configured plate-scale constant `0.0253 / 2560` for axis 1, as the
exact fraction `253/25600000`. -/
def cdelt1Const : ℚ := ⟨253, 25600000, by norm_num, by norm_num⟩

/-- The configured plate-scale constant `0.0253 / 2160` for axis 2, as the
exact fraction `253/21600000`. -/
def cdelt2Const : ℚ := ⟨253, 21600000, by norm_num, by norm_num⟩

lemma gbandWL_eq : gbandWL = 4307 / 10 := by
  rw [gbandWL, Rat.mk'_eq_divInt, Rat.divInt_eq_div]
  norm_num

lemma continuumWL_eq : continuumWL = 45055 / 100 := by
  rw [continuumWL, Rat.mk'_eq_divInt, Rat.divInt_eq_div]
  norm_num

lemma cdelt1Const_eq : cdelt1Const = (253 / 10000) / 2560 := by
  rw [cdelt1Const, Rat.mk'_eq_divInt, Rat.divInt_eq_div]
  norm_num

lemma cdelt2Const_eq : cdelt2Const = (253 / 10000) / 2160 := by
  rw [cdelt2Const, Rat.mk'_eq_divInt, Rat.divInt_eq_div]
  norm_num

/-- Header patch of `LoadGregorGBandEditor.call` (lines 111-115): sets
`cunit1`, `cunit2`, `cdelt1`, `cdelt2` on the primary header. -/
def patchGBand (h : Header) : Header :=
  hset (hset (hset (hset h "cunit1" (.hstr "arcsec")) "cunit2" (.hstr "arcsec"))
    "cdelt1" (.hnum cdelt1Const)) "cdelt2" (.hnum cdelt2Const)

/-- Header patch of `LoadGregorContinuumEditor.call` (lines 139-143): the
source writes the key `cunit` (not `cunit1`), then `cunit2`, `cdelt1`,
`cdelt2`. -/
def patchContinuum (h : Header) : Header :=
  hset (hset (hset (hset h "cunit" (.hstr "arcsec")) "cunit2" (.hstr "arcsec"))
    "cdelt1" (.hnum cdelt1Const)) "cdelt2" (.hnum cdelt2Const)

/-- Channel-index determination (lines 105-110 resp. 133-138): the assert
that the primary header has a wavelength tag, then the first record's tag
is compared with the target, then the second record's; otherwise the file
is rejected. -/
def selectIndex (hdul : HDUL) (target : HVal) : Except LoadError Nat :=
  match hdul.head? with
  | none => .error .indexError
  | some hdu0 =>
    match hget hdu0.header "WAVELNTH" with
    | none => .error .missingMetadataError
    | some w0 =>
      if w0 = target then .ok 0
      else
        match hdul[1]? with
        | none => .error .indexError
        | some hdu1 =>
          match hget hdu1.header "WAVELNTH" with
          | none => .error .keyError
          | some w1 => if w1 = target then .ok 1 else .error .unsupportedInstrumentFile

/-- The slice `hdul[index::2]`: every second record starting at `index`,
written as every other element of `hdul.drop index`. -/
def everyOther {α : Type} : List α → List α
  | [] => []
  | [x] => [x]
  | x :: _ :: rest => x :: everyOther rest

/-- The `TIMEOFFS` sort key of a record, when present and numeric. -/
def timeoffsQ (hdu : HDU) : Option ℚ :=
  match hget hdu.header "TIMEOFFS" with
  | some (.hnum q) => some q
  | _ => none

/-- The defaulted `TIMEOFFS` key used by the sort after all selected
records have been checked to carry a numeric value. -/
def timeoffsD (hdu : HDU) : ℚ := (timeoffsQ hdu).getD 0

/-- The Python `sorted(..., key=lambda hdu: hdu.header['TIMEOFFS'])`: an
ascending stable sort by the per-record time offset. -/
def sortByTimeoffs (l : List HDU) : List HDU :=
  List.insertionSort (fun a b => timeoffsD a ≤ timeoffsD b) l

/-- Deinterleave then sort (lines 117-118 resp. 145-146). `sorted` computes
the key of every selected record; a record without a numeric `TIMEOFFS`
raises, embedded as `keyError`. -/
def deinterleaveSort (hdul : HDUL) (index : Nat) : Except LoadError (List HDU) :=
  let band := everyOther (hdul.drop index)
  if band.all (fun hdu => (timeoffsQ hdu).isSome) then .ok (sortByTimeoffs band)
  else .error .keyError

/-- Common body of the two loader variants, parameterized by the target
wavelength and the header patch in which alone they differ: determine the
channel index, patch the primary header in place, deinterleave, sort by
time offset, and emit the frames with the shared corrected header plus the
`path` metadata update. -/
def loadGregor (target : HVal) (patch : Header → Header) (file : String)
    (hdul : HDUL) : Except LoadError (List GMap × Metadata) :=
  match selectIndex hdul target with
  | .error e => .error e
  | .ok index =>
    let ph := patch ((hdul.headD ⟨[], []⟩).header)
    match deinterleaveSort hdul index with
    | .error e => .error e
    | .ok band => .ok (band.map (fun hdu => ⟨hdu.data, ph⟩), [("path", .mstr file)])

deriving instance DecidableEq for Except

/-- `LoadGregorGBandEditor.call` (lines 98-119). -/
def loadGregorGBand (file : String) (hdul : HDUL) : Except LoadError (List GMap × Metadata) :=
  loadGregor gbandTarget patchGBand file hdul

/-- `LoadGregorContinuumEditor.call` (lines 126-146). -/
def loadGregorContinuum (file : String) (hdul : HDUL) : Except LoadError (List GMap × Metadata) :=
  loadGregor continuumTarget patchContinuum file hdul

/-! ### Loader lemmas: deinterleave positions, stable sort -/

lemma everyOther_getElem? {α : Type} :
    ∀ (k : Nat) (l : List α), (everyOther l)[k]? = l[2 * k]?
  | 0, [] => rfl
  | 0, [_] => by
    rw [show everyOther [_] = [_] from rfl, show 2 * 0 = 0 from rfl]
  | 0, x :: y :: rest => by
    rw [show everyOther (x :: y :: rest) = x :: everyOther rest from rfl,
      show 2 * 0 = 0 from rfl, List.getElem?_cons_zero, List.getElem?_cons_zero]
  | _ + 1, [] => rfl
  | k + 1, [x] => by
    rw [show everyOther [x] = [x] from rfl,
      List.getElem?_eq_none (show ([x] : List α).length ≤ k + 1 by simp),
      List.getElem?_eq_none (show ([x] : List α).length ≤ 2 * (k + 1) by simp; omega)]
  | k + 1, x :: y :: rest => by
    rw [show everyOther (x :: y :: rest) = x :: everyOther rest from rfl,
      show 2 * (k + 1) = 2 * k + 1 + 1 by ring,
      List.getElem?_cons_succ, List.getElem?_cons_succ, List.getElem?_cons_succ]
    exact everyOther_getElem? k rest

lemma orderedInsert_filter_key {α : Type} (key : α → ℚ) (q : ℚ) (a : α) :
    ∀ l : List α,
      (List.orderedInsert (fun x y => key x ≤ key y) a l).filter
          (fun x => decide (key x = q))
        = ((a :: l).filter (fun x => decide (key x = q)))
  | [] => rfl
  | b :: l => by
    by_cases hab : key a ≤ key b
    · rw [List.orderedInsert, if_pos hab]
    · rw [List.orderedInsert, if_neg hab]
      by_cases hbq : key b = q
      · have haq : ¬ key a = q := fun h => hab (by rw [h, hbq])
        simp [List.filter_cons, hbq, haq, orderedInsert_filter_key key q a l]
      · simp [List.filter_cons, hbq, orderedInsert_filter_key key q a l]

lemma insertionSort_filter_key {α : Type} (key : α → ℚ) (q : ℚ) :
    ∀ l : List α,
      (List.insertionSort (fun x y => key x ≤ key y) l).filter
          (fun x => decide (key x = q))
        = l.filter (fun x => decide (key x = q))
  | [] => rfl
  | a :: l => by
    rw [List.insertionSort, orderedInsert_filter_key key q a _,
      List.filter_cons, List.filter_cons, insertionSort_filter_key key q l]

lemma pairwise_sortByTimeoffs (l : List HDU) :
    List.Pairwise (fun a b => timeoffsD a ≤ timeoffsD b) (sortByTimeoffs l) := by
  haveI : IsTotal HDU (fun a b => timeoffsD a ≤ timeoffsD b) := ⟨fun a b => le_total _ _⟩
  haveI : IsTrans HDU (fun a b => timeoffsD a ≤ timeoffsD b) :=
    ⟨fun _ _ _ h1 h2 => le_trans h1 h2⟩
  exact List.sorted_insertionSort _ l

/-! ### Claim C5: loader error cases -/

/-- C5: when the first record carries a wavelength tag, a second record
exists and also carries one, and neither tag equals the configured target,
the G-band loader fails with `unsupportedInstrumentFile` (so no frames are
emitted); when the first record has no wavelength tag at all, it fails with
`missingMetadataError` instead. -/
theorem loader_rejects (file : String) (hdu0 hdu1 : HDU) (rest : HDUL)
    (w0 w1 : HVal) (hdu0n : HDU) (restn : HDUL)
    (h0 : hget hdu0.header "WAVELNTH" = some w0)
    (h1 : hget hdu1.header "WAVELNTH" = some w1)
    (hw0 : w0 ≠ gbandTarget) (hw1 : w1 ≠ gbandTarget)
    (hn : hget hdu0n.header "WAVELNTH" = none) :
    loadGregorGBand file (hdu0 :: hdu1 :: rest) = .error .unsupportedInstrumentFile ∧
    loadGregorGBand file (hdu0n :: restn) = .error .missingMetadataError := by
  constructor
  · simp [loadGregorGBand, loadGregor, selectIndex, h0, h1, hw0, hw1]
  · simp [loadGregorGBand, loadGregor, selectIndex, hn]

/-- Witness for C5: a two-record container with tags 500 and 600 (neither
equals 430.7), and a container whose first record has no wavelength tag. -/
theorem loader_rejects_witness :
    loadGregorGBand "f.fits"
        [⟨[("WAVELNTH", .hnum 500)], [[some 1]]⟩, ⟨[("WAVELNTH", .hnum 600)], [[some 2]]⟩]
      = .error .unsupportedInstrumentFile ∧
    loadGregorGBand "f.fits" [⟨[("TIMEOFFS", .hnum 1)], [[some 1]]⟩]
      = .error .missingMetadataError :=
  loader_rejects "f.fits" ⟨[("WAVELNTH", .hnum 500)], [[some 1]]⟩
    ⟨[("WAVELNTH", .hnum 600)], [[some 2]]⟩ [] (.hnum 500) (.hnum 600)
    ⟨[("TIMEOFFS", .hnum 1)], [[some 1]]⟩ [] (by decide) (by decide) (by decide)
    (by decide) (by decide)

/-! ### Claim C4: deinterleave and stable temporal sort -/

/-- C4 counterexample: in a container whose second record's wavelength tag
equals the configured target but whose first record carries no wavelength
tag at all, the claim as stated promises frames at positions 1, 3, 5, …,
but the loader's assert fires first and no frames are emitted. -/
theorem loader_deinterleave_counterexample :
    hget (HDU.mk [("TIMEOFFS", .hnum 1)] [[some 1]]).header "WAVELNTH" = none ∧
    hget (HDU.mk [("WAVELNTH", .hnum gbandWL), ("TIMEOFFS", .hnum 2)] [[some 2]]).header
        "WAVELNTH" = some gbandTarget ∧
    loadGregorGBand "f.fits"
        [⟨[("TIMEOFFS", .hnum 1)], [[some 1]]⟩,
         ⟨[("WAVELNTH", .hnum gbandWL), ("TIMEOFFS", .hnum 2)], [[some 2]]⟩]
      = .error .missingMetadataError := by
  refine ⟨rfl, ?_, ?_⟩ <;> decide

/-- C4 (amended with: the first record carries a wavelength tag, and every
selected record carries a numeric time-offset field — the latter is the
claim's own presupposition that the sort key exists): when the first or
second record's tag equals the target, with `index ∈ {0,1}` the matching
channel, the loader emits exactly the records at container positions
`index, index+2, index+4, …`, reordered by an ascending stable sort on
`TIMEOFFS`: the emitted sequence is sorted by time offset, and for every
key value the subsequence with that key equals the selected subsequence in
container order (ties keep container order). -/
theorem loader_deinterleave_sort (file : String) (hdu0 : HDU) (rest : HDUL)
    (w0 : HVal) (index : Nat)
    (hw0 : hget hdu0.header "WAVELNTH" = some w0)
    (hidx : (w0 = gbandTarget ∧ index = 0) ∨
      (w0 ≠ gbandTarget ∧ index = 1 ∧
        ∃ hdu1 rest2, rest = hdu1 :: rest2 ∧
          hget hdu1.header "WAVELNTH" = some gbandTarget))
    (htime : ∀ hdu ∈ everyOther ((hdu0 :: rest).drop index), (timeoffsQ hdu).isSome = true) :
    ∃ sortedSel,
      loadGregorGBand file (hdu0 :: rest)
        = .ok (sortedSel.map (fun hdu => ⟨hdu.data, patchGBand hdu0.header⟩),
            [("path", .mstr file)]) ∧
      sortedSel = sortByTimeoffs (everyOther ((hdu0 :: rest).drop index)) ∧
      (∀ k, (everyOther ((hdu0 :: rest).drop index))[k]? = (hdu0 :: rest)[index + 2 * k]?) ∧
      List.Pairwise (fun a b => timeoffsD a ≤ timeoffsD b) sortedSel ∧
      (∀ q : ℚ, sortedSel.filter (fun hdu => decide (timeoffsD hdu = q))
        = (everyOther ((hdu0 :: rest).drop index)).filter
            (fun hdu => decide (timeoffsD hdu = q))) := by
  have hsel : selectIndex (hdu0 :: rest) gbandTarget = .ok index := by
    rcases hidx with ⟨hq, hi⟩ | ⟨hne, hi, hdu1, rest2, hrest, h1⟩
    · subst hi
      simp [selectIndex, hw0, hq]
    · subst hi
      subst hrest
      simp [selectIndex, hw0, hne, h1]
  have hall : (everyOther ((hdu0 :: rest).drop index)).all
      (fun hdu => (timeoffsQ hdu).isSome) = true :=
    List.all_eq_true.mpr htime
  refine ⟨sortByTimeoffs (everyOther ((hdu0 :: rest).drop index)), ?_, rfl, ?_, ?_, ?_⟩
  · rw [loadGregorGBand, loadGregor, hsel]
    simp only [deinterleaveSort, hall, if_true, List.headD_cons]
  · intro k
    rw [everyOther_getElem?, List.getElem?_drop]
  · exact pairwise_sortByTimeoffs _
  · intro q
    exact insertionSort_filter_key timeoffsD q _

/-- Record 0 of the C4 witness container: G-band tag, time offset 3. -/
def wHDU0 : HDU := ⟨[("WAVELNTH", .hnum gbandWL), ("TIMEOFFS", .hnum 3)], [[some 10]]⟩

/-- Record 1 of the C4 witness container: other channel, time offset 1. -/
def wHDU1 : HDU := ⟨[("WAVELNTH", .hnum 999), ("TIMEOFFS", .hnum 1)], [[some 11]]⟩

/-- Record 2 of the C4 witness container: G-band tag, time offset 2. -/
def wHDU2 : HDU := ⟨[("WAVELNTH", .hnum gbandWL), ("TIMEOFFS", .hnum 2)], [[some 12]]⟩

/-- Record 3 of the C4 witness container: other channel, time offset 1. -/
def wHDU3 : HDU := ⟨[("WAVELNTH", .hnum 999), ("TIMEOFFS", .hnum 1)], [[some 13]]⟩

/-- Witness for C4 on the spec's synthetic container: wavelengths
`[430.7, 999, 430.7, 999]`, time offsets `[3, 1, 2, 1]`; channel index 0 is
selected and the frames come out in the order of original positions 2, 0. -/
theorem loader_deinterleave_sort_witness :
    ∃ sortedSel,
      loadGregorGBand "f.fits" (wHDU0 :: [wHDU1, wHDU2, wHDU3])
        = .ok (sortedSel.map (fun hdu => ⟨hdu.data, patchGBand wHDU0.header⟩),
            [("path", .mstr "f.fits")]) ∧
      sortedSel = sortByTimeoffs (everyOther ((wHDU0 :: [wHDU1, wHDU2, wHDU3]).drop 0)) ∧
      (∀ k, (everyOther ((wHDU0 :: [wHDU1, wHDU2, wHDU3]).drop 0))[k]?
        = (wHDU0 :: [wHDU1, wHDU2, wHDU3])[0 + 2 * k]?) ∧
      List.Pairwise (fun a b => timeoffsD a ≤ timeoffsD b) sortedSel ∧
      (∀ q : ℚ, sortedSel.filter (fun hdu => decide (timeoffsD hdu = q))
        = (everyOther ((wHDU0 :: [wHDU1, wHDU2, wHDU3]).drop 0)).filter
            (fun hdu => decide (timeoffsD hdu = q))) :=
  loader_deinterleave_sort "f.fits" wHDU0 [wHDU1, wHDU2, wHDU3] gbandTarget 0
    (by decide) (Or.inl ⟨rfl, rfl⟩) (by decide)

/-- Sanity check pinned to the spec's example: the emitted frame data are
those of original positions 2 then 0 (time offsets 2 then 3). -/
theorem loader_deinterleave_sort_example :
    (loadGregorGBand "f.fits" [wHDU0, wHDU1, wHDU2, wHDU3]).map
        (fun r => r.1.map GMap.data)
      = .ok [[[some 12]], [[some 10]]] := by
  decide

/-! ### Claim C3: header patching in both loader variants -/

/-- Concrete single-record G-band container whose raw header carries a
wrong `cunit1` of `"deg"`. -/
def demoGBandHDUL : HDUL :=
  [⟨[("WAVELNTH", .hnum gbandWL), ("TIMEOFFS", .hnum 0), ("cunit1", .hstr "deg"),
     ("cunit2", .hstr "deg")], [[some 1]]⟩]

/-- Concrete single-record continuum container whose raw header carries a
wrong `cunit1` of `"deg"`. -/
def demoContHDUL : HDUL :=
  [⟨[("WAVELNTH", .hnum continuumWL), ("TIMEOFFS", .hnum 0), ("cunit1", .hstr "deg"),
     ("cunit2", .hstr "deg")], [[some 1]]⟩]

/-- C3 evaluated at the failing input: the G-band loader patches `cunit1`,
`cunit2`, `cdelt1`, `cdelt2` as claimed, but the continuum loader writes
the key `"cunit"` instead of `"cunit1"` (line 140 of the source), so on a
successfully loaded continuum file the emitted frames' header still
carries the raw (wrong) `cunit1 = "deg"` while a spurious `cunit` key holds
`"arcsec"`. -/
theorem loader_header_patch_divergence :
    (loadGregorGBand "g.fits" demoGBandHDUL).map
        (fun r => r.1.map (fun m => [hget m.meta "cunit1", hget m.meta "cunit2",
          hget m.meta "cdelt1", hget m.meta "cdelt2"]))
      = .ok [[some (.hstr "arcsec"), some (.hstr "arcsec"),
          some (.hnum cdelt1Const), some (.hnum cdelt2Const)]] ∧
    (loadGregorContinuum "c.fits" demoContHDUL).map
        (fun r => r.1.map (fun m => [hget m.meta "cunit1", hget m.meta "cunit",
          hget m.meta "cunit2", hget m.meta "cdelt1", hget m.meta "cdelt2"]))
      = .ok [[some (.hstr "deg"), some (.hstr "arcsec"), some (.hstr "arcsec"),
          some (.hnum cdelt1Const), some (.hnum cdelt2Const)]] := by
  constructor <;> decide

/-! ### `PaddingEditor` (lines 150-165) -/

/-- The value `int(np.floor(delta / 2))`: floor of half, on integers. -/
def padlow (delta : ℤ) : ℤ := Int.fdiv delta 2

/-- The value `int(np.ceil(delta / 2))`: ceiling of half, on integers. -/
def padhigh (delta : ℤ) : ℤ := Int.fdiv (delta + 1) 2

/-- One row under `np.pad`: `yl` NaN cells before, `yh` after. -/
def npPadRow (yl yh : Nat) (r : Row) : Row :=
  List.replicate yl none ++ r ++ List.replicate yh none

/-- `np.pad(img, [(xl, xh), (yl, yh)], 'constant', constant_values=np.nan)`
on a 2-D array: all-NaN border rows above and below, each original row
extended by NaN on both sides. -/
def npPad2 (xl xh yl yh : Nat) (img : Img) : Img :=
  List.replicate xl (List.replicate (yl + Img.wid img + yh) none)
    ++ img.map (npPadRow yl yh)
    ++ List.replicate xh (List.replicate (yl + Img.wid img + yh) none)

/-- `PaddingEditor.call`: computes `x_pad = (p[0] - s[-2]) / 2` and
`y_pad = (p[1] - s[-1]) / 2`, pads the two trailing axes by the floor and
the ceiling of these, inserts `(0, 0)` in front for the leading axis of a
3-D array, and fills with NaN. `np.pad` rejects negative pad widths, which
an undersized target triggers (`ValueError`). -/
def PaddingEditor.call (target_shape : Nat × Nat) (data : NDArr) : Except String NDArr :=
  match data with
  | .d2 img =>
    let xf := padlow ((target_shape.1 : ℤ) - (Img.hgt img : ℤ))
    let xc := padhigh ((target_shape.1 : ℤ) - (Img.hgt img : ℤ))
    let yf := padlow ((target_shape.2 : ℤ) - (Img.wid img : ℤ))
    let yc := padhigh ((target_shape.2 : ℤ) - (Img.wid img : ℤ))
    if 0 ≤ xf ∧ 0 ≤ xc ∧ 0 ≤ yf ∧ 0 ≤ yc then
      .ok (.d2 (npPad2 xf.toNat xc.toNat yf.toNat yc.toNat img))
    else .error "ValueError"
  | .d3 st =>
    let xf := padlow ((target_shape.1 : ℤ) - (Stack.hgt st : ℤ))
    let xc := padhigh ((target_shape.1 : ℤ) - (Stack.hgt st : ℤ))
    let yf := padlow ((target_shape.2 : ℤ) - (Stack.wid st : ℤ))
    let yc := padhigh ((target_shape.2 : ℤ) - (Stack.wid st : ℤ))
    if 0 ≤ xf ∧ 0 ≤ xc ∧ 0 ≤ yf ∧ 0 ≤ yc then
      .ok (.d3 (st.map (npPad2 xf.toNat xc.toNat yf.toNat yc.toNat)))
    else .error "ValueError"

lemma padlow_ofNat (d : Nat) : padlow (d : ℤ) = ((d / 2 : Nat) : ℤ) := by
  show Int.fdiv (d : ℤ) 2 = ((d / 2 : Nat) : ℤ)
  rw [show (2 : ℤ) = ((2 : Nat) : ℤ) by norm_num]
  exact (Int.ofNat_fdiv d 2).symm

lemma padhigh_ofNat (d : Nat) : padhigh (d : ℤ) = (((d + 1) / 2 : Nat) : ℤ) := by
  show Int.fdiv ((d : ℤ) + 1) 2 = (((d + 1) / 2 : Nat) : ℤ)
  rw [show ((d : ℤ) + 1) = ((d + 1 : Nat) : ℤ) by push_cast; ring,
    show (2 : ℤ) = ((2 : Nat) : ℤ) by norm_num]
  exact (Int.ofNat_fdiv (d + 1) 2).symm

/-! ### Cell-level characterization of `npPad2` -/

lemma getD_append_lt {α : Type} (l1 l2 : List α) (i : Nat) (d : α)
    (h : i < l1.length) :
    (l1 ++ l2).getD i d = l1.getD i d := by
  rw [List.getD_eq_getElem?_getD, List.getD_eq_getElem?_getD,
    List.getElem?_append_left h]

lemma getD_append_ge {α : Type} (l1 l2 : List α) (i : Nat) (d : α)
    (h : l1.length ≤ i) :
    (l1 ++ l2).getD i d = l2.getD (i - l1.length) d := by
  rw [List.getD_eq_getElem?_getD, List.getD_eq_getElem?_getD,
    List.getElem?_append_right h]

lemma getD_replicate {α : Type} (n j : Nat) (a : α) (d : α) :
    (List.replicate n a).getD j d = if j < n then a else d := by
  rw [List.getD_eq_getElem?_getD, List.getElem?_replicate]
  split <;> rfl

lemma getD_mem_of_lt {α : Type} (l : List α) (i : Nat) (d : α)
    (h : i < l.length) : l.getD i d ∈ l := by
  rw [List.getD_eq_getElem?_getD, List.getElem?_eq_getElem h]
  exact List.getElem_mem h

lemma npPadRow_getD (yl yh : Nat) (r : Row) (j : Nat) :
    (npPadRow yl yh r).getD j none =
      if yl ≤ j ∧ j < yl + r.length then r.getD (j - yl) none else none := by
  unfold npPadRow
  rw [List.append_assoc]
  by_cases h1 : j < yl
  · rw [getD_append_lt _ _ _ _ (by rw [List.length_replicate]; omega),
      getD_replicate, ite_self, if_neg (by omega)]
  · rw [getD_append_ge _ _ _ _ (by rw [List.length_replicate]; omega),
      List.length_replicate]
    by_cases h2 : j - yl < r.length
    · rw [getD_append_lt _ _ _ _ h2, if_pos (by omega)]
    · rw [getD_append_ge _ _ _ _ (by omega), getD_replicate, ite_self,
        if_neg (by omega)]

lemma npPad2_row (xl xh yl yh : Nat) (img : Img) (i : Nat) :
    (npPad2 xl xh yl yh img).getD i [] =
      if xl ≤ i ∧ i < xl + img.length then npPadRow yl yh (img.getD (i - xl) [])
      else if i < xl + img.length + xh then
        List.replicate (yl + Img.wid img + yh) none
      else [] := by
  unfold npPad2
  rw [List.append_assoc]
  by_cases h1 : i < xl
  · rw [getD_append_lt _ _ _ _ (by rw [List.length_replicate]; omega),
      getD_replicate, if_pos h1, if_neg (by omega), if_pos (by omega)]
  · rw [getD_append_ge _ _ _ _ (by rw [List.length_replicate]; omega),
      List.length_replicate]
    by_cases h2 : i - xl < img.length
    · rw [getD_append_lt _ _ _ _ (by rw [List.length_map]; omega),
        getD_map_of_lt _ _ _ [] _ h2, if_pos (by omega)]
    · rw [getD_append_ge _ _ _ _ (by rw [List.length_map]; omega),
        List.length_map, getD_replicate]
      by_cases h3 : i - xl - img.length < xh
      · rw [if_pos h3, if_neg (by omega), if_pos (by omega)]
      · rw [if_neg h3, if_neg (by omega), if_neg (by omega)]

lemma cell2_npPad2 (xl xh yl yh : Nat) (img : Img) (hrect : Img.rect img)
    (i j : Nat) :
    cell2 (npPad2 xl xh yl yh img) i j =
      if xl ≤ i ∧ i < xl + img.length ∧ yl ≤ j ∧ j < yl + Img.wid img
      then cell2 img (i - xl) (j - yl) else none := by
  unfold cell2
  rw [npPad2_row xl xh yl yh img i]
  by_cases h1 : xl ≤ i ∧ i < xl + img.length
  · rw [if_pos h1, npPadRow_getD]
    have hlen : (img.getD (i - xl) []).length = Img.wid img :=
      hrect _ (getD_mem_of_lt _ _ _ (by omega))
    rw [hlen]
    by_cases h2 : yl ≤ j ∧ j < yl + Img.wid img
    · rw [if_pos h2, if_pos ⟨h1.1, h1.2, h2.1, h2.2⟩]
    · rw [if_neg h2,
        if_neg (show ¬(xl ≤ i ∧ i < xl + List.length img ∧ yl ≤ j ∧
          j < yl + Img.wid img) from by tauto)]
  · rw [if_neg h1,
      if_neg (show ¬(xl ≤ i ∧ i < xl + List.length img ∧ yl ≤ j ∧
        j < yl + Img.wid img) from by tauto)]
    by_cases h2 : i < xl + img.length + xh
    · rw [if_pos h2, getD_replicate, ite_self]
    · rw [if_neg h2]
      exact getD_of_not_lt _ _ _ (by simp)

/-! ### Claim C2: PaddingEditor -/

lemma paddingCall_d2_eq (p0 p1 : Nat) (img : Img)
    (hh : Img.hgt img ≤ p0) (hw : Img.wid img ≤ p1) :
    PaddingEditor.call (p0, p1) (.d2 img) =
      .ok (.d2 (npPad2 ((p0 - Img.hgt img) / 2) ((p0 - Img.hgt img + 1) / 2)
        ((p1 - Img.wid img) / 2) ((p1 - Img.wid img + 1) / 2) img)) := by
  simp only [PaddingEditor.call]
  rw [show ((p0 : ℤ) - (Img.hgt img : ℤ)) = ((p0 - Img.hgt img : Nat) : ℤ) by omega,
    show ((p1 : ℤ) - (Img.wid img : ℤ)) = ((p1 - Img.wid img : Nat) : ℤ) by omega,
    padlow_ofNat, padhigh_ofNat, padlow_ofNat, padhigh_ofNat,
    if_pos ⟨Int.natCast_nonneg _, Int.natCast_nonneg _,
      Int.natCast_nonneg _, Int.natCast_nonneg _⟩]
  rw [Int.toNat_natCast, Int.toNat_natCast, Int.toNat_natCast, Int.toNat_natCast]

lemma paddingCall_d3_eq (p0 p1 : Nat) (st : Stack)
    (hh : Stack.hgt st ≤ p0) (hw : Stack.wid st ≤ p1) :
    PaddingEditor.call (p0, p1) (.d3 st) =
      .ok (.d3 (st.map (npPad2 ((p0 - Stack.hgt st) / 2) ((p0 - Stack.hgt st + 1) / 2)
        ((p1 - Stack.wid st) / 2) ((p1 - Stack.wid st + 1) / 2)))) := by
  simp only [PaddingEditor.call]
  rw [show ((p0 : ℤ) - (Stack.hgt st : ℤ)) = ((p0 - Stack.hgt st : Nat) : ℤ) by omega,
    show ((p1 : ℤ) - (Stack.wid st : ℤ)) = ((p1 - Stack.wid st : Nat) : ℤ) by omega,
    padlow_ofNat, padhigh_ofNat, padlow_ofNat, padhigh_ofNat,
    if_pos ⟨Int.natCast_nonneg _, Int.natCast_nonneg _,
      Int.natCast_nonneg _, Int.natCast_nonneg _⟩]
  rw [Int.toNat_natCast, Int.toNat_natCast, Int.toNat_natCast, Int.toNat_natCast]

lemma wid_eq_of_rect3 (st : Stack) (hrect3 : Stack.rect st) :
    ∀ im ∈ st, Img.wid im = Stack.wid st := by
  intro im him
  match im, hrect3 im him with
  | [], hfr =>
    cases st with
    | nil => exact absurd him (List.not_mem_nil _)
    | cons s0 rest =>
      have hs0 : s0.length = Stack.hgt (s0 :: rest) :=
        (hrect3 s0 (List.mem_cons_self s0 rest)).1
      have h0 : Stack.hgt (s0 :: rest) = 0 := by
        have := hfr.1
        simp only [List.length_nil] at this
        omega
      have : s0 = [] := List.length_eq_zero.mp (by omega)
      subst this
      rfl
  | r :: rest2, hfr =>
    show r.length = Stack.wid st
    exact hfr.2 r (List.mem_cons_self r rest2)

/-- C2: for every 2-D or 3-D input whose trailing-axis sizes are at most
the target shape, `PaddingEditor.call` succeeds; each of the two trailing
axes is padded by `low = floor(delta/2)` on the low side and
`high = ceil(delta/2)` on the high side (so the output trailing shape is
exactly the target and the original cells sit at offset `floor(delta/2)`
from the low edge), the leading axis of a 3-D input is never padded (the
frame count is unchanged), every newly introduced border cell holds the
NaN sentinel, and every original cell is copied unchanged. -/
theorem paddingEditor_spec (p0 p1 : Nat) (img : Img) (st : Stack)
    (hrect : Img.rect img) (hh : Img.hgt img ≤ p0) (hw : Img.wid img ≤ p1)
    (hrect3 : Stack.rect st) (hh3 : Stack.hgt st ≤ p0) (hw3 : Stack.wid st ≤ p1) :
    (∃ out, PaddingEditor.call (p0, p1) (.d2 img) = .ok (.d2 out) ∧
      out.length = p0 ∧ (∀ r ∈ out, r.length = p1) ∧
      (∀ i j, cell2 out i j =
        if (p0 - Img.hgt img) / 2 ≤ i ∧ i < (p0 - Img.hgt img) / 2 + Img.hgt img ∧
            (p1 - Img.wid img) / 2 ≤ j ∧ j < (p1 - Img.wid img) / 2 + Img.wid img
        then cell2 img (i - (p0 - Img.hgt img) / 2) (j - (p1 - Img.wid img) / 2)
        else none)) ∧
    (∃ out3, PaddingEditor.call (p0, p1) (.d3 st) = .ok (.d3 out3) ∧
      out3.length = st.length ∧
      (∀ im ∈ out3, im.length = p0 ∧ ∀ r ∈ im, r.length = p1) ∧
      (∀ k i j, k < st.length → cell3 out3 k i j =
        if (p0 - Stack.hgt st) / 2 ≤ i ∧ i < (p0 - Stack.hgt st) / 2 + Stack.hgt st ∧
            (p1 - Stack.wid st) / 2 ≤ j ∧ j < (p1 - Stack.wid st) / 2 + Stack.wid st
        then cell3 st k (i - (p0 - Stack.hgt st) / 2) (j - (p1 - Stack.wid st) / 2)
        else none)) := by
  constructor
  · refine ⟨_, paddingCall_d2_eq p0 p1 img hh hw, ?_, ?_, ?_⟩
    · simp only [npPad2, List.length_append, List.length_replicate, List.length_map]
      simp only [Img.hgt] at hh ⊢
      omega
    · intro r hr
      simp only [npPad2, List.mem_append, List.mem_replicate, List.mem_map] at hr
      rcases hr with (⟨_, rfl⟩ | ⟨r0, hr0, rfl⟩) | ⟨_, rfl⟩
      · rw [List.length_replicate]
        omega
      · simp only [npPadRow, List.length_append, List.length_replicate]
        have := hrect r0 hr0
        omega
      · rw [List.length_replicate]
        omega
    · intro i j
      rw [cell2_npPad2 _ _ _ _ img hrect i j]
      rfl
  · refine ⟨_, paddingCall_d3_eq p0 p1 st hh3 hw3, ?_, ?_, ?_⟩
    · rw [List.length_map]
    · intro im him
      simp only [List.mem_map] at him
      obtain ⟨im0, him0, rfl⟩ := him
      have hfr := hrect3 im0 him0
      have hwid := wid_eq_of_rect3 st hrect3 im0 him0
      constructor
      · simp only [npPad2, List.length_append, List.length_replicate, List.length_map]
        omega
      · intro r hr
        simp only [npPad2, List.mem_append, List.mem_replicate, List.mem_map] at hr
        rcases hr with (⟨_, rfl⟩ | ⟨r0, hr0, rfl⟩) | ⟨_, rfl⟩
        · rw [List.length_replicate]
          omega
        · simp only [npPadRow, List.length_append, List.length_replicate]
          have := hfr.2 r0 hr0
          omega
        · rw [List.length_replicate]
          omega
    · intro k i j hk
      unfold cell3
      rw [getD_map_of_lt _ _ _ [] _ hk]
      have hmem := getD_mem_of_lt st k [] hk
      have hfr := hrect3 _ hmem
      have hwid := wid_eq_of_rect3 st hrect3 _ hmem
      have hrectf : Img.rect (st.getD k []) := by
        intro r hr
        rw [hfr.2 r hr, hwid]
      rw [cell2_npPad2 _ _ _ _ _ hrectf i j, hfr.1, hwid]

/-- Witness for C2 at a concrete 2-D input `[[1]]` padded to `(2, 3)` and a
concrete one-frame 3-D input. -/
theorem paddingEditor_spec_witness :
    (∃ out, PaddingEditor.call (2, 3) (.d2 [[some 1]]) = .ok (.d2 out) ∧
      out.length = 2 ∧ (∀ r ∈ out, r.length = 3) ∧
      (∀ i j, cell2 out i j =
        if (2 - Img.hgt [[some 1]]) / 2 ≤ i ∧
            i < (2 - Img.hgt [[some 1]]) / 2 + Img.hgt [[some 1]] ∧
            (3 - Img.wid [[some 1]]) / 2 ≤ j ∧
            j < (3 - Img.wid [[some 1]]) / 2 + Img.wid [[some 1]]
        then cell2 [[some 1]] (i - (2 - Img.hgt [[some 1]]) / 2)
          (j - (3 - Img.wid [[some 1]]) / 2)
        else none)) ∧
    (∃ out3, PaddingEditor.call (2, 3) (.d3 [[[some 1]]]) = .ok (.d3 out3) ∧
      out3.length = ([[[some 1]]] : Stack).length ∧
      (∀ im ∈ out3, im.length = 2 ∧ ∀ r ∈ im, r.length = 3) ∧
      (∀ k i j, k < ([[[some 1]]] : Stack).length → cell3 out3 k i j =
        if (2 - Stack.hgt [[[some 1]]]) / 2 ≤ i ∧
            i < (2 - Stack.hgt [[[some 1]]]) / 2 + Stack.hgt [[[some 1]]] ∧
            (3 - Stack.wid [[[some 1]]]) / 2 ≤ j ∧
            j < (3 - Stack.wid [[[some 1]]]) / 2 + Stack.wid [[[some 1]]]
        then cell3 [[[some 1]]] k (i - (2 - Stack.hgt [[[some 1]]]) / 2)
          (j - (3 - Stack.wid [[[some 1]]]) / 2)
        else none)) :=
  paddingEditor_spec 2 3 [[some 1]] [[[some 1]]] (by unfold Img.rect; decide)
    (by decide) (by decide) (by unfold Stack.rect; decide) (by decide) (by decide)

/-! ### `UnpaddingEditor` (lines 169-184) and claim C1 -/

/-- A Python value appearing in the `unpad` index list of
`UnpaddingEditor.call`: `None`, an `int`, or a two-tuple. -/
inductive PyIdx : Type
  | noneI
  | intI (n : ℤ)
  | pairI (a b : PyIdx)
deriving DecidableEq

/-- Python subscripting `v[k]` on such a value: only the tuple supports it;
subscripting `None` or an `int` raises `TypeError`. -/
def PyIdx.subscript : PyIdx → Nat → Except String PyIdx
  | .pairI a _, 0 => .ok a
  | .pairI _ b, 1 => .ok b
  | _, _ => .error "TypeError"

/-- The idiom `None if int(...) == 0 else int(...)` of lines 180-183. -/
def noneIfZero (n : ℤ) : PyIdx := if n = 0 then .noneI else .intI n

/-- Python list slicing `l[a:b]` with optional signed bounds (negative
bounds count from the end; missing bounds keep the edge). -/
def pySlice {α : Type} (l : List α) (a b : Option ℤ) : List α :=
  let len : ℤ := l.length
  let lo := match a with
    | none => 0
    | some x => if x < 0 then max 0 (len + x) else min x len
  let hi := match b with
    | none => len
    | some x => if x < 0 then max 0 (len + x) else min x len
  (l.take hi.toNat).drop lo.toNat

/-- An index value used as one bound of a slice; `None` keeps the edge. A
tuple in bound position would itself raise (unreachable here). -/
def PyIdx.toBound : PyIdx → Except String (Option ℤ)
  | .noneI => .ok none
  | .intI n => .ok (some n)
  | .pairI _ _ => .error "TypeError"

/-- `UnpaddingEditor.call`: computes `x_unpad = (s[-2] - p[0]) / 2` and
`y_unpad = (s[-1] - p[1]) / 2`, builds the `unpad` list exactly as the
source does — two scalar-or-`None` entries holding the floor and the
ceiling of `y_unpad`, then one tuple holding the floor and the ceiling of
`x_unpad` — and then evaluates
`data[:, unpad[0][0]:unpad[0][1], unpad[1][0]:unpad[1][1]]`, whose index
expressions subscript the scalar-or-`None` entries `unpad[0]` and
`unpad[1]`. -/
def UnpaddingEditor.call (target_shape : Nat × Nat) (data : NDArr) :
    Except String NDArr :=
  let p := target_shape
  let sm2 : Nat := match data with | .d2 img => Img.hgt img | .d3 st => Stack.hgt st
  let sm1 : Nat := match data with | .d2 img => Img.wid img | .d3 st => Stack.wid st
  let xf := padlow ((sm2 : ℤ) - (p.1 : ℤ))
  let xc := padhigh ((sm2 : ℤ) - (p.1 : ℤ))
  let yf := padlow ((sm1 : ℤ) - (p.2 : ℤ))
  let yc := padhigh ((sm1 : ℤ) - (p.2 : ℤ))
  let unpad : List PyIdx :=
    [noneIfZero yf, noneIfZero yc, .pairI (noneIfZero xf) (noneIfZero xc)]
  match (unpad.getD 0 .noneI).subscript 0 with
  | .error e => .error e
  | .ok a00 =>
    match (unpad.getD 0 .noneI).subscript 1 with
    | .error e => .error e
    | .ok a01 =>
      match (unpad.getD 1 .noneI).subscript 0 with
      | .error e => .error e
      | .ok a10 =>
        match (unpad.getD 1 .noneI).subscript 1 with
        | .error e => .error e
        | .ok a11 =>
          match data with
          | .d2 _ => .error "IndexError"
          | .d3 st =>
            match a00.toBound, a01.toBound, a10.toBound, a11.toBound with
            | .ok b00, .ok b01, .ok b10, .ok b11 =>
              .ok (.d3 (st.map (fun im =>
                (pySlice im b00 b01).map (fun r => pySlice r b10 b11))))
            | _, _, _, _ => .error "TypeError"

lemma subscript_noneIfZero (n : ℤ) (k : Nat) :
    (noneIfZero n).subscript k = .error "TypeError" := by
  unfold noneIfZero
  split
  · cases k <;> rfl
  · cases k <;> rfl

/-- The unpad call raises on every input: `unpad[0]` is a scalar or `None`,
never a tuple, so the very first index expression `unpad[0][0]` raises. -/
lemma unpaddingEditor_call_raises (p : Nat × Nat) (data : NDArr) :
    UnpaddingEditor.call p data = .error "TypeError" := by
  simp only [UnpaddingEditor.call, List.getD_cons_zero, subscript_noneIfZero]

/-- C1: the pad/unpad round trip never returns the original array, because
`UnpaddingEditor.call` raises `TypeError` on every input (its `unpad` list
stores the two y-axis crop amounts as scalars-or-`None` and only the
x-axis pair as a tuple, and then subscripts the scalars). In particular,
for the 1-by-1 array `[[5]]` padded to `(2, 2)` and unpadded with original
shape `(1, 1)`, the round trip raises instead of returning the array. -/
theorem unpaddingEditor_roundtrip_fails (q : Nat × Nat) (data : NDArr) :
    UnpaddingEditor.call q data = .error "TypeError" ∧
    (PaddingEditor.call (2, 2) (.d2 [[some 5]])).bind (UnpaddingEditor.call (1, 1))
      = .error "TypeError" ∧
    (PaddingEditor.call (2, 2) (.d2 [[some 5]])).bind (UnpaddingEditor.call (1, 1))
      ≠ .ok (.d2 [[some 5]]) := by
  have hpad : PaddingEditor.call (2, 2) (.d2 [[some 5]])
      = .ok (.d2 [[some 5, none], [none, none]]) := by
    rw [paddingCall_d2_eq 2 2 [[some 5]] (by decide) (by decide)]
    rfl
  refine ⟨unpaddingEditor_call_raises q data, ?_, ?_⟩
  · rw [hpad]
    show UnpaddingEditor.call (1, 1) (.d2 [[some 5, none], [none, none]])
      = .error "TypeError"
    exact unpaddingEditor_call_raises _ _
  · rw [hpad]
    show UnpaddingEditor.call (1, 1) (.d2 [[some 5, none], [none, none]])
      ≠ .ok (.d2 [[some 5]])
    rw [unpaddingEditor_call_raises]
    intro h
    exact Except.noConfusion h
